import Mathlib

/-!
Verification of the VoltDB catalog code generator (src/catgen/catalog.py).

The generator reads a list of class descriptors (name, doc comment, ordered
fields; each field has a name and a raw type token) and emits, per class,
a managed-backend (Java) source file and a manual-backend (C++) header/cpp
pair.  We embed the generator shallowly: the emitted file content is a list
of lines (one list element per call to the Python write helper, which joins
its arguments with spaces; embedded newline escapes are kept verbatim inside
the line string), and the behaviour of emitted routines (the generated set,
addChild, removeChild, update) is given by executable Lean functions derived
from the exact text the generator emits.

Conventions used throughout:
- Python exceptions (including IndexError from x[-1] on an empty token) are
  modelled as Option/Except failures.
- Java and C++ assert statements in emitted code are modelled as checks that
  abort (return none) when their condition fails.
- Machine integers: Java Integer.parseInt is modelled over Int with the
  explicit 32-bit range check that parseInt performs.
-/

set_option autoImplicit false

namespace Catgen

/-- Last character of a string, mirroring the Python expression x[-1]
(IndexError on the empty string is modelled as none). -/
def lastChar? (s : String) : Option Char := s.data.getLast?

/-- Python x[:-1] : the string with its final character removed. -/
def strDropLast (s : String) : String := String.mk s.data.dropLast

/-- Python x.rstrip(c) : remove every trailing occurrence of the character c. -/
def pyRstrip (s : String) (c : Char) : String :=
  String.mk ((s.data.reverse.dropWhile (fun a => a == c)).reverse)

/-- Remove all trailing occurrences of c from a character list, by structural
recursion (used as the spec-side phrasing of trailing-marker stripping). -/
def stripTrailing (c : Char) : List Char → List Char
  | [] => []
  | a :: as =>
    let r := stripTrailing c as
    if as.all (fun b => b == c) ∧ a == c then [] else a :: r

/-- Python str.capitalize() : first character uppercased, all remaining
characters lowercased (ASCII identifiers in this generator). -/
def pyCapitalize (s : String) : String :=
  match s.data with
  | [] => String.mk []
  | c :: rest => String.mk (c.toUpper :: rest.map Char.toLower)

/-- Java String.trim() : strip leading and trailing characters of code point
at most U+0020 from both ends. -/
def javaTrim (s : String) : String :=
  String.mk
    (((s.data.dropWhile (fun c => c.toNat ≤ 32)).reverse.dropWhile
      (fun c => c.toNat ≤ 32)).reverse)

/-- Java s.startsWith(t), on character lists. -/
def strStartsWith (s t : String) : Bool := t.data.isPrefixOf s.data

/-- Java s.endsWith(t), on character lists. -/
def strEndsWith (s t : String) : Bool := t.data.reverse.isPrefixOf s.data.reverse

/-- Java s.substring(1, s.length() - 1): strip the first and last character
(the emitted string-set code applies it after the quote asserts). -/
def substrInner (s : String) : String := String.mk (s.data.drop 1).dropLast

/-- Case-insensitive string equality (Java equalsIgnoreCase, ASCII). -/
def eqIgnoreCase (s t : String) : Bool :=
  s.data.map Char.toLower == t.data.map Char.toLower

/-! ## Data model

A field descriptor: name, raw type token, optional doc comment.  A class
descriptor: name, optional doc comment, ordered field list.  These mirror
the objects produced by the external parser (catalog_utils, not under the
verified sources) exactly as the generator consumes them. -/

structure Field where
  name : String
  type : String
  comment : Option String := none
deriving Repr, DecidableEq

structure Cls where
  name : String
  comment : Option String := none
  fields : List Field
deriving Repr, DecidableEq

/-! ## Field classifier

javatypify / javaobjectify / cpptypify from catalog.py.  Each maps a raw
type token to the backend type text, raising (modelled: none) on an
unrecognized token.  The branch structure is: exact scalar match first,
then trailing star (collection, target = token.rstrip of the star), then
trailing question mark (reference), else failure. -/

def javatypify (x : String) : Option String :=
  if x = "string" then some "String"
  else if x = "int" then some "int"
  else if x = "bool" then some "boolean"
  else if lastChar? x = some '*' then some ("CatalogMap<" ++ pyRstrip x '*' ++ ">")
  else if lastChar? x = some '?' then some (pyRstrip x '?')
  else none

def javaobjectify (x : String) : Option String :=
  if x = "string" then some "String"
  else if x = "int" then some "Integer"
  else if x = "bool" then some "Boolean"
  else if lastChar? x = some '*' then some ("CatalogMap<" ++ pyRstrip x '*' ++ ">")
  else if lastChar? x = some '?' then some (pyRstrip x '?')
  else none

def cpptypify (x : String) : Option String :=
  if x = "string" then some "std::string"
  else if x = "int" then some "int32_t"
  else if x = "bool" then some "bool"
  else if lastChar? x = some '*' then some ("CatalogMap<" ++ pyRstrip x '*' ++ ">")
  else if lastChar? x = some '?' then some "CatalogType*"
  else none

/-- The field kinds of the data model: three scalar kinds, child
collections and references, the latter two carrying a target class name. -/
inductive FieldKind where
  | scalarString
  | scalarInt
  | scalarBool
  | collection (target : String)
  | reference (target : String)
deriving Repr, DecidableEq

/-- The classification a raw type token receives in the generator, written
with the branch structure and the target extraction (Python rstrip of the
trailing marker character) of javatypify / javaobjectify. -/
def classify (x : String) : Option FieldKind :=
  if x = "string" then some .scalarString
  else if x = "int" then some .scalarInt
  else if x = "bool" then some .scalarBool
  else if lastChar? x = some '*' then some (.collection (pyRstrip x '*'))
  else if lastChar? x = some '?' then some (.reference (pyRstrip x '?'))
  else none

/-- Spec-side restatement of classification with the amended target rule:
scalars by exact match; otherwise a token whose last character is the star
marker is a Collection and one whose last character is the question-mark
marker is a Reference, the target being the token with ALL trailing marker
characters removed. -/
def specClassify (x : String) : Option FieldKind :=
  if x = "string" then some .scalarString
  else if x = "int" then some .scalarInt
  else if x = "bool" then some .scalarBool
  else if x.data.getLast? = some '*' then
    some (.collection (String.mk (stripTrailing '*' x.data)))
  else if x.data.getLast? = some '?' then
    some (.reference (String.mk (stripTrailing '?' x.data)))
  else none

/-! ## Managed-backend (Java) emitter, genjava

Each function below returns the list of lines one section of the generated
class file consists of, one list element per write call, Java braces written
with hex escapes.  Sections that appear after the field-declaration section
need the java type text of every field; they are only evaluated when every
field classified successfully (the field-declaration section raised
otherwise, aborting the class), so they take the type via a default that is
unreachable in any run that gets there. -/

/-- Verbatim text constant from catalog_utils (support module not under the
verified sources); its content is irrelevant to every claim, so it is kept
abstract as a fixed string. -/
def gpl_header : String := "<gpl_header>"

/-- Verbatim text constant from catalog_utils (support module not under the
verified sources), kept abstract like the header constant. -/
def auto_gen_warning : String := "<auto_gen_warning>"

/-- The java type text of a field, with an unreachable default for fields
that do not classify (the generator raised before using it). -/
def jt (f : Field) : String := (javatypify f.type).getD "<unclassified>"

/-- Lines written for one field of the field-declaration section. -/
def fieldDeclLine (f : Field) (ft : String) : String :=
  if ft = "String" then "    String m_" ++ f.name ++ " = new String();"
  else if lastChar? f.type = some '?' then
    "    Catalog.CatalogReference<" ++ ft ++ "> m_" ++ f.name ++
      " = new CatalogReference<>();"
  else "    " ++ ft ++ " m_" ++ f.name ++ ";"

/-- The field-declaration section: one declaration per field in order, then a
blank line.  The first javatypify failure raises, and the lines already
written stay in the (partially written) file: error carries them. -/
def fieldsSection : List Field → Except (List String) (List String)
  | [] => .ok [""]
  | f :: rest =>
    match javatypify f.type with
    | none => .error []
    | some ft =>
      match fieldsSection rest with
      | .ok ls => .ok (fieldDeclLine f ft :: ls)
      | .error ls => .error (fieldDeclLine f ft :: ls)

/-- Lines contributed by one field to setBaseValues (collections only). -/
def setBaseValuesFieldLines (f : Field) : List String :=
  if lastChar? f.type = some '*' then
    ["        m_" ++ f.name ++ " = new CatalogMap<" ++ pyRstrip f.type '*' ++
      ">(getCatalog(), this, \"" ++ f.name ++ "\", " ++ strDropLast f.type ++
      ".class, m_parentMap.m_depth + 1);"]
  else []

def setBaseValuesLines (fields : List Field) : List String :=
  ["    void setBaseValues(CatalogMap<? extends CatalogType> parentMap, String name) \x7b",
   "        super.setBaseValues(parentMap, name);"] ++
  fields.flatMap setBaseValuesFieldLines ++ ["    \x7d\n"]

/-- getFields section: the quoted name of every field whose raw type does not
end in the collection marker, in descriptor order. -/
def getFieldsLines (fields : List Field) : List String :=
  ["    public String[] getFields() \x7b", "        return new String[] \x7b"] ++
  fields.flatMap
    (fun f => if lastChar? f.type ≠ some '*' then
        ["            \"" ++ f.name ++ "\","] else []) ++
  ["        \x7d;", "    \x7d;\n"]

/-- getChildCollections section: the quoted name of every field whose raw
type ends in the collection marker, in descriptor order. -/
def getChildCollectionsLines (fields : List Field) : List String :=
  ["    String[] getChildCollections() \x7b", "        return new String[] \x7b"] ++
  fields.flatMap
    (fun f => if lastChar? f.type = some '*' then
        ["            \"" ++ f.name ++ "\","] else []) ++
  ["        \x7d;", "    \x7d;\n"]

/-- getField dispatch: one case per field, returning get<Capitalized>(). -/
def getFieldLines (fields : List Field) : List String :=
  ["    public Object getField(String field) \x7b", "        switch (field) \x7b"] ++
  fields.flatMap
    (fun f => ["        case \"" ++ f.name ++ "\":",
               "            return get" ++ pyCapitalize f.name ++ "();"]) ++
  ["        default:",
   "            throw new CatalogException(\"Unknown field\");",
   "        \x7d", "    \x7d\n"]

def getterFieldLines (f : Field) : List String :=
  (match f.comment with
   | some c => ["    /** GETTER: " ++ c ++ " */"]
   | none => []) ++
  ["    public " ++ jt f ++ " get" ++ pyCapitalize f.name ++ "() \x7b",
   if lastChar? f.type = some '?' then "        return m_" ++ f.name ++ ".get();"
   else "        return m_" ++ f.name ++ ";",
   "    \x7d\n"]

def getterLines (fields : List Field) : List String :=
  fields.flatMap getterFieldLines

def setterFieldLines (f : Field) : List String :=
  if lastChar? f.type = some '*' then []
  else
    (match f.comment with
     | some c => ["    /** SETTER: " ++ c ++ " */"]
     | none => []) ++
    ["    public void set" ++ pyCapitalize f.name ++ "(" ++ jt f ++ " value) \x7b",
     if lastChar? f.type = some '?' then "        m_" ++ f.name ++ ".set(value);"
     else "        m_" ++ f.name ++ " = value;",
     "    \x7d\n"]

def setterLines (fields : List Field) : List String :=
  fields.flatMap setterFieldLines

/-- Lines of one field's case in the generated set(field, value) switch. -/
def setFieldLines (f : Field) : List String :=
  if lastChar? f.type = some '*' then []
  else
    ["        case \"" ++ f.name ++ "\":"] ++
    (if lastChar? f.type = some '?' then
      ["            value = value.trim();",
       "            if (value.startsWith(\"null\")) value = null;",
       "            assert((value == null) || value.startsWith(\"/\"));",
       "            m_" ++ f.name ++ ".setUnresolved(value);"]
     else if jt f = "int" then
      ["            assert(value != null);",
       "            m_" ++ f.name ++ " = Integer.parseInt(value);"]
     else if jt f = "boolean" then
      ["            assert(value != null);",
       "            m_" ++ f.name ++ " = Boolean.parseBoolean(value);"]
     else if jt f = "String" then
      ["            value = value.trim();",
       "            if (value.startsWith(\"null\")) value = null;",
       "            if (value != null) \x7b",
       "                assert(value.startsWith(\"\\\"\") && value.endsWith(\"\\\"\"));",
       "                value = value.substring(1, value.length() - 1);",
       "            \x7d",
       "            m_" ++ f.name ++ " = value;"]
     else []) ++
    ["            break;"]

def setLines (fields : List Field) : List String :=
  ["    @Override",
   "    void set(String field, String value) \x7b",
   "        if ((field == null) || (value == null)) \x7b",
   "            throw new CatalogException(\"Null value where it shouldn't be.\");",
   "        \x7d\n",
   "        switch (field) \x7b"] ++
  fields.flatMap setFieldLines ++
  ["        default:",
   "            throw new CatalogException(\"Unknown field\");",
   "        \x7d", "    \x7d\n"]

/-- The copyFields line for one field: plain assignment for scalar java
types, path copy through setUnresolved for references, delegated copyFrom
for collections (branch order exactly as in the generator, keyed on the
java type text first). -/
def copyFieldLine (f : Field) : List String :=
  if jt f = "int" ∨ jt f = "boolean" ∨ jt f = "String" then
    ["        other.m_" ++ f.name ++ " = m_" ++ f.name ++ ";"]
  else if lastChar? f.type = some '?' then
    ["        other.m_" ++ f.name ++ ".setUnresolved(m_" ++ f.name ++ ".getPath());"]
  else if lastChar? f.type = some '*' then
    ["        other.m_" ++ f.name ++ ".copyFrom(m_" ++ f.name ++ ");"]
  else []

def copyFieldsLines (clsname : String) (fields : List Field) : List String :=
  ["    @Override", "    void copyFields(CatalogType obj) \x7b"] ++
  (if fields.length > 0 then
    ["        // this is safe from the caller",
     "        " ++ clsname ++ " other = (" ++ clsname ++ ") obj;\n"] ++
    fields.flatMap copyFieldLine
   else []) ++
  ["    \x7d\n"]

/-- The equals comparison lines for one field: int and boolean java types by
value inequality, every other field (String, reference handle, collection
container alike) by null-mismatch then .equals. -/
def equalsFieldLines (f : Field) : List String :=
  if jt f = "int" ∨ jt f = "boolean" then
    ["        if (m_" ++ f.name ++ " != other.m_" ++ f.name ++ ") return false;"]
  else
    ["        if ((m_" ++ f.name ++ " == null) != (other.m_" ++ f.name ++
       " == null)) return false;",
     "        if ((m_" ++ f.name ++ " != null) && !m_" ++ f.name ++
       ".equals(other.m_" ++ f.name ++ ")) return false;"]

def equalsLines (clsname : String) (fields : List Field) : List String :=
  ["    public boolean equals(Object obj) \x7b",
   "        // this isn't really the convention for null handling",
   "        if ((obj == null) || (obj.getClass().equals(getClass()) == false))",
   "            return false;\n",
   "        // Do the identity check",
   "        if (obj == this)",
   "            return true;\n",
   "        // this is safe because of the class check",
   "        // it is also known that the childCollections var will be the same",
   "        //  from the class check",
   "        " ++ clsname ++ " other = (" ++ clsname ++ ") obj;\n",
   "        // are the fields / children the same? (deep compare)"] ++
  fields.flatMap equalsFieldLines ++
  ["", "        return true;", "    \x7d\n"]

def preambleLines (pkg : String) (cls : Cls) : List String :=
  [gpl_header, auto_gen_warning, "package " ++ pkg ++ ";\n"] ++
  (match cls.comment with
   | some c => ["/**\n * " ++ c, " */"]
   | none => []) ++
  ["public class " ++ cls.name ++ " extends CatalogType \x7b\n"]

/-- The whole generated class file: inr complete-content when every field
classifies, inl the partially written content when a field-declaration
raised (the preamble and the declarations before the bad field were already
written to the open file). -/
def genjavaClass (pkg : String) (cls : Cls) : Sum (List String) (List String) :=
  match fieldsSection cls.fields with
  | .error part => .inl (preambleLines pkg cls ++ part)
  | .ok fl =>
    .inr (preambleLines pkg cls ++ fl ++
      setBaseValuesLines cls.fields ++
      getFieldsLines cls.fields ++
      getChildCollectionsLines cls.fields ++
      getFieldLines cls.fields ++
      getterLines cls.fields ++
      setterLines cls.fields ++
      setLines cls.fields ++
      copyFieldsLines cls.name cls.fields ++
      equalsLines cls.name cls.fields ++
      ["\x7d"])

/-! ## Run-level model of genjava

File-system effects as an ordered trace: directory clearing/creation, the
static support-file copies, then one file write per class.  On the class
whose emission raises, the partially written file remains and the run stops
with failure. -/

inductive FsEvent where
  | clearDir (path : String)
  | makeDir (path : String)
  | copyFile (src dst : String)
  | writeFile (path : String) (lines : List String)
deriving Repr, DecidableEq

def genjavaSetup (prepath postpath : String) : List FsEvent :=
  [.clearDir postpath, .makeDir postpath] ++
  (["Catalog.java", "CatalogType.java", "CatalogMap.java", "CatalogException.java",
    "CatalogChangeGroup.java", "CatalogDiffEngine.java",
    "FilteredCatalogDiffEngine.java"].map
    (fun n => .copyFile (prepath ++ "/" ++ n) postpath))

def genjavaLoop (pkg postpath : String) : List Cls → List FsEvent × Bool
  | [] => ([], true)
  | cls :: rest =>
    match genjavaClass pkg cls with
    | .inr lines =>
      let r := genjavaLoop pkg postpath rest
      (.writeFile (postpath ++ "/" ++ cls.name ++ ".java") lines :: r.1, r.2)
    | .inl part => ([.writeFile (postpath ++ "/" ++ cls.name ++ ".java") part], false)

def genjavaRun (classes : List Cls) (prepath postpath pkg : String) :
    List FsEvent × Bool :=
  let r := genjavaLoop pkg postpath classes
  (genjavaSetup prepath postpath ++ r.1, r.2)

/-! ## Semantics of the generated managed-backend set(field, value)

Executable meaning of the emitted switch, for a non-null field name and
value (the emitted routine throws on nulls before the switch).  A returned
none is a thrown CatalogException, a failed assert, or an exception from
Integer.parseInt / String.substring. -/

inductive SetOutcome where
  | setInt (n : Int)
  | setBool (b : Bool)
  | setStr (s : Option String)
  | setRefUnresolved (path : Option String)
deriving Repr, DecidableEq

/-- Java Integer.parseInt: optional single leading sign, at least one
decimal digit, result within the signed 32-bit range; anything else throws
(none). -/
def parseIntJava (s : String) : Option Int :=
  match s.data with
  | [] => none
  | c :: rest =>
    let digits : List Char := if c = '-' ∨ c = '+' then rest else c :: rest
    if digits = [] then none
    else if digits.all Char.isDigit then
      let n : Nat := digits.foldl (fun a d => a * 10 + (d.toNat - 48)) 0
      let v : Int := if c = '-' then -(n : Int) else (n : Int)
      if -(2 ^ 31) ≤ v ∧ v ≤ 2 ^ 31 - 1 then some v else none
    else none

/-- Java Boolean.parseBoolean: case-insensitive comparison with the literal
true. -/
def parseBooleanJava (s : String) : Bool := eqIgnoreCase s "true"

/-- Behaviour of the case emitted for one (non-collection) field, read off
the emitted statements: references trim, map a leading null token to an
unresolved no-path state, assert a leading slash and pass the trimmed path;
int fields parse base-10; boolean fields parse the boolean literal; string
fields trim, map a leading null token to null, assert a leading and
trailing quote and strip one character from each end (a one-character
value passes the asserts and then throws inside substring). -/
def javaSetField (f : Field) (value : String) : Option SetOutcome :=
  if lastChar? f.type = some '?' then
    let v := javaTrim value
    if strStartsWith v "null" then some (.setRefUnresolved none)
    else if strStartsWith v "/" then some (.setRefUnresolved (some v))
    else none
  else if jt f = "int" then (parseIntJava value).map .setInt
  else if jt f = "boolean" then some (.setBool (parseBooleanJava value))
  else if jt f = "String" then
    let v := javaTrim value
    if strStartsWith v "null" then some (.setStr none)
    else if strStartsWith v "\"" ∧ strEndsWith v "\"" then
      if 2 ≤ v.data.length then some (.setStr (some (substrInner v)))
      else none
    else none
  else none

/-- The generated switch: the case of the first (unique-named) non-collection
field called fieldName runs; no case matching means the default throws. -/
def javaSet (cls : Cls) (fieldName value : String) : Option SetOutcome :=
  match cls.fields.find?
      (fun f => !(lastChar? f.type == some '*') && f.name == fieldName) with
  | some f => javaSetField f value
  | none => none

/-! ## Manual-backend (C++) emitter, gencpp: the parts the claims are about -/

/-- The referencedClasses accumulation loop of gencpp: for each field whose
raw type ends in a marker, append the token minus its final character when
not already collected. -/
def referencedClassesLoop : List Field → List String → List String
  | [], acc => acc
  | f :: rest, acc =>
    if (lastChar? f.type = some '*' ∨ lastChar? f.type = some '?') ∧
        strDropLast f.type ∉ acc then
      referencedClassesLoop rest (acc ++ [strDropLast f.type])
    else referencedClassesLoop rest acc

/-- The names forward-declared for a class: the collected targets with the
class's own name removed (Python list.remove of the first occurrence when
present). -/
def referencedClasses (cls : Cls) : List String :=
  (referencedClassesLoop cls.fields []).erase cls.name

/-- The forward-declaration lines the header emits, in collection order. -/
def forwardDeclLines (cls : Cls) : List String :=
  (referencedClasses cls).map (fun t => "class " ++ t ++ ";")

/-- The C++ type text of a field with an unreachable default (gencpp runs
after genjava already classified every field). -/
def ct (f : Field) : String := (cpptypify f.type).getD "<unclassified>"

/-- Lines contributed by one field to the emitted update(): a reference
projects the typeValue member, a non-collection scalar projects intValue,
except that a string field projects strValue; collections contribute
nothing.  No textual parsing appears. -/
def updateFieldLine (f : Field) : List String :=
  if lastChar? f.type = some '?' then
    ["    m_" ++ f.name ++ " = m_fields[\"" ++ f.name ++ "\"].typeValue;"]
  else if lastChar? f.type ≠ some '*' then
    if ct f = "std::string" then
      ["    m_" ++ f.name ++ " = m_fields[\"" ++ f.name ++ "\"].strValue.c_str();"]
    else
      ["    m_" ++ f.name ++ " = m_fields[\"" ++ f.name ++ "\"].intValue;"]
  else []

def updateLines (clsname : String) (fields : List Field) : List String :=
  ["void " ++ clsname ++ "::update() \x7b"] ++
  fields.flatMap updateFieldLine ++ ["\x7d\n"]

/-- The generic per-field value-table entry of the manual backend
(CatalogValue in the static support header): the typed views the emitted
update() projects from. -/
structure CatalogValue where
  intValue : Int := 0
  strValue : String := ""
  typeValue : Option String := none
deriving Repr, DecidableEq

/-- What the emitted update() stores into a string field member: the pure
projection of the strValue view, with no trimming, quote stripping or
null-sentinel handling (read off the emitted assignment of
strValue.c_str()). -/
def cppUpdateStringDecode (cv : CatalogValue) : String := cv.strValue

/-- The names registered in m_childCollections by the emitted constructor:
exactly the collection fields, in order. -/
def collectionNames (cls : Cls) : List String :=
  (cls.fields.filter (fun f => lastChar? f.type == some '*')).map Field.name

/-- Modelled from the spec: the CatalogMap container lives in a static
support file (catalogmap.h) that is not under the verified sources.  The
spec describes an owning name-keyed container of children where lookup
finds a child by name, addChild "delegates creation to the container", and
remove "returns a boolean success/failure".  A collection's content is
modelled as the list of its child names; cmapGet reports presence. -/
def cmapGet (children : List String) (n : String) : Bool := children.contains n

inductive AddChildResult where
  | nullPtr
  | created (childName : String)
deriving Repr, DecidableEq

/-- The dispatch chain of the emitted addChild: one if-block per collection
field in order; on the matching name, NULL when the child already exists,
else delegated creation; falling off the end returns NULL. -/
def cppAddChildLoop (st : String → List String) (collectionName childName : String) :
    List Field → AddChildResult
  | [] => .nullPtr
  | f :: rest =>
    if lastChar? f.type = some '*' ∧ f.name = collectionName then
      (if cmapGet (st f.name) childName then .nullPtr else .created childName)
    else cppAddChildLoop st collectionName childName rest

def cppAddChild (cls : Cls) (st : String → List String)
    (collectionName childName : String) : AddChildResult :=
  cppAddChildLoop st collectionName childName cls.fields

/-- The dispatch chain of the emitted removeChild body after its assert: the
matching collection delegates to the container's remove (modelled from the
spec: success reports whether the child was present); falling off the end
returns false. -/
def cppRemoveChildLoop (st : String → List String) (collectionName childName : String) :
    List Field → Bool
  | [] => false
  | f :: rest =>
    if lastChar? f.type = some '*' ∧ f.name = collectionName then
      cmapGet (st f.name) childName
    else cppRemoveChildLoop st collectionName childName rest

/-- The emitted removeChild: the leading assert aborts (none) when the
collection name is not registered in m_childCollections; otherwise the
dispatch chain runs. -/
def cppRemoveChild (cls : Cls) (st : String → List String)
    (collectionName childName : String) : Option Bool :=
  if collectionName ∈ collectionNames cls then
    some (cppRemoveChildLoop st collectionName childName cls.fields)
  else none

/-! ## Spec-side definitions

These follow the wording of the specification (or of the amended claims)
and are compared with the source-derived definitions above. -/

/-- Spec-side accessor-name derivation: uppercase the first character,
lowercase all remaining characters. -/
def specCapitalize (s : String) : String :=
  String.mk ((s.data.take 1).map Char.toUpper ++ (s.data.drop 1).map Char.toLower)

def isCollectionKind : Option FieldKind → Bool
  | some (.collection _) => true
  | _ => false

def kindIsScalarOrRef : Option FieldKind → Bool
  | some (.collection _) => false
  | some _ => true
  | none => false

/-- Spec-side: the names of the fields classified Scalar or Reference, in
descriptor order. -/
def specFieldNames (fields : List Field) : List String :=
  (fields.filter (fun f => kindIsScalarOrRef (classify f.type))).map Field.name

/-- Spec-side: the names of the Collection-classified fields, in descriptor
order. -/
def specCollectionNames (fields : List Field) : List String :=
  (fields.filter (fun f => isCollectionKind (classify f.type))).map Field.name

/-- Spec-side: the target class names of the Reference and Collection
fields, in descriptor order, with repetitions. -/
def specRefCollTargets (fields : List Field) : List String :=
  fields.filterMap (fun f =>
    match classify f.type with
    | some (.collection t) => some t
    | some (.reference t) => some t
    | _ => none)

/-- Keep the first occurrence of every element, dropping later repeats. -/
def dedupKeepFirst : List String → List String
  | [] => []
  | a :: as => a :: (dedupKeepFirst as).filter (fun b => b ≠ a)

/-- Spec-side forward-declaration set: distinct Reference/Collection targets
in first-occurrence order, the class's own name excluded. -/
def specForwardDecls (cls : Cls) : List String :=
  (dedupKeepFirst (specRefCollTargets cls.fields)).filter (fun t => t ≠ cls.name)

/-- Spec-side (amended) per-field update() lines: a pure projection of the
value-table view selected by the field's kind, no parsing. -/
def specUpdateFieldLines (f : Field) : List String :=
  match classify f.type with
  | some (.reference _) =>
    ["    m_" ++ f.name ++ " = m_fields[\"" ++ f.name ++ "\"].typeValue;"]
  | some .scalarString =>
    ["    m_" ++ f.name ++ " = m_fields[\"" ++ f.name ++ "\"].strValue.c_str();"]
  | some .scalarInt =>
    ["    m_" ++ f.name ++ " = m_fields[\"" ++ f.name ++ "\"].intValue;"]
  | some .scalarBool =>
    ["    m_" ++ f.name ++ " = m_fields[\"" ++ f.name ++ "\"].intValue;"]
  | _ => []

/-- Spec-side copyFields action per field: plain value assignment for
scalars, unresolved-path copy for references, delegated recursive copyFrom
for collections. -/
def specCopyFieldLine (f : Field) : List String :=
  match classify f.type with
  | some .scalarString | some .scalarInt | some .scalarBool =>
    ["        other.m_" ++ f.name ++ " = m_" ++ f.name ++ ";"]
  | some (.reference _) =>
    ["        other.m_" ++ f.name ++ ".setUnresolved(m_" ++ f.name ++ ".getPath());"]
  | some (.collection _) =>
    ["        other.m_" ++ f.name ++ ".copyFrom(m_" ++ f.name ++ ");"]
  | none => []

/-- Spec-side (amended) equals comparison per field: int and bool scalars by
value inequality; every other field, collections included, by null-mismatch
then deep equals. -/
def specEqualsFieldLines (f : Field) : List String :=
  match classify f.type with
  | some .scalarInt | some .scalarBool =>
    ["        if (m_" ++ f.name ++ " != other.m_" ++ f.name ++ ") return false;"]
  | _ =>
    ["        if ((m_" ++ f.name ++ " == null) != (other.m_" ++ f.name ++
       " == null)) return false;",
     "        if ((m_" ++ f.name ++ " != null) && !m_" ++ f.name ++
       ".equals(other.m_" ++ f.name ++ ")) return false;"]

/-- Spec-side (amended) string-field coercion: trim, a leading null token
means null, otherwise a leading and a trailing quote character (with at
least two characters present) are required and stripped. -/
def specStringCoerce (v : String) : Option SetOutcome :=
  let w := javaTrim v
  if strStartsWith w "null" then some (.setStr none)
  else if strStartsWith w "\"" ∧ strEndsWith w "\"" ∧ 2 ≤ w.data.length then
    some (.setStr (some (substrInner w)))
  else none

/-- Spec-side (amended) reference-field coercion: trim, a leading null token
means unresolved with no path, otherwise the trimmed path must begin with a
slash and is passed to setUnresolved. -/
def specRefCoerce (v : String) : Option SetOutcome :=
  let w := javaTrim v
  if strStartsWith w "null" then some (.setRefUnresolved none)
  else if strStartsWith w "/" then some (.setRefUnresolved (some w))
  else none

/-! ## Concrete demonstration inputs -/

/-- A small class with two scalar fields. -/
def demoColumn : Cls := ⟨"Column", none, [⟨"name", "string", none⟩, ⟨"index", "int", none⟩]⟩

/-- A class exercising all four field shapes. -/
def demoTable : Cls :=
  ⟨"Table", none,
   [⟨"name", "string", none⟩, ⟨"isreplicated", "bool", none⟩,
    ⟨"partitioncolumn", "Column?", none⟩, ⟨"columns", "Column*", none⟩]⟩

/-- A class whose second field has an unrecognized raw type token. -/
def demoBroken : Cls := ⟨"Broken", none, [⟨"name", "string", none⟩, ⟨"size", "frob", none⟩]⟩

/-- A class with a single reference field. -/
def demoProc : Cls := ⟨"Proc", none, [⟨"partitiontable", "Table?", none⟩]⟩

/-- A class with a self-reference and a collection of another class. -/
def demoStat : Cls :=
  ⟨"Stat", none, [⟨"parent", "Stat?", none⟩, ⟨"columns", "Column*", none⟩]⟩

/-- A collection-content assignment for the demonstration classes. -/
def demoSt : String → List String := fun n => if n = "columns" then ["c1"] else []

/-- The paths of the files a trace wrote. -/
def writesOf (evs : List FsEvent) : List String :=
  evs.filterMap (fun e => match e with
    | .writeFile p _ => some p
    | _ => none)

theorem stripTrailing_eq_reverse_dropWhile (c : Char) (l : List Char) :
    stripTrailing c l = (l.reverse.dropWhile (fun a => a == c)).reverse := by
  induction l with
  | nil => simp [stripTrailing]
  | cons a as ih =>
    by_cases hall : as.all (fun b => b == c) = true
    · by_cases hac : a == c
      · have hdrop : (as.reverse ++ [a]).dropWhile (fun x => x == c) = [] := by
          apply List.dropWhile_eq_nil_iff.mpr
          intro x hx
          rcases List.mem_append.mp hx with hxa | hxa
          · exact List.all_eq_true.mp hall x (List.mem_reverse.mp hxa)
          · simpa [List.mem_singleton.mp hxa] using hac
        simp [stripTrailing, hall, hac, hdrop]
      · simp only [stripTrailing, hall, hac]
        have hac' : (a == c) = false := by simpa using hac
        simp only [List.reverse_cons, ih]
        rw [List.dropWhile_append]
        by_cases hrev : as.reverse.dropWhile (fun x => x == c) = []
        · simp [hrev, List.dropWhile_cons, hac', and_false]
        · simp [hrev, and_false]
    · have hex : ∃ b ∈ as, (b == c) = false := by
        have h := List.all_eq_true.not.mp hall
        push_neg at h
        rcases h with ⟨b, hbmem, hbne⟩
        exact ⟨b, hbmem, by simpa using hbne⟩
      have hrevne : as.reverse.dropWhile (fun x => x == c) ≠ [] := by
        intro hnil
        rcases hex with ⟨b, hbmem, hbne⟩
        have := List.dropWhile_eq_nil_iff.mp hnil b (List.mem_reverse.mpr hbmem)
        simp [hbne] at this
      simp only [stripTrailing, hall, false_and, if_false]
      rw [ih, List.reverse_cons, List.dropWhile_append]
      simp [hrevne]

theorem pyRstrip_eq_stripTrailing (s : String) (c : Char) :
    pyRstrip s c = String.mk (stripTrailing c s.data) := by
  rw [stripTrailing_eq_reverse_dropWhile]; rfl

theorem classify_eq_specClassify_aux (x : String) : classify x = specClassify x := by
  unfold classify specClassify lastChar?
  rw [pyRstrip_eq_stripTrailing, pyRstrip_eq_stripTrailing]

/-! ## Classifier case analysis -/

theorem classify_cases (x : String) (k : FieldKind) (h : classify x = some k) :
    (x = "string" ∧ k = .scalarString) ∨
    (x = "int" ∧ k = .scalarInt) ∨
    (x = "bool" ∧ k = .scalarBool) ∨
    (x ≠ "string" ∧ x ≠ "int" ∧ x ≠ "bool" ∧ lastChar? x = some '*' ∧
      k = .collection (pyRstrip x '*')) ∨
    (x ≠ "string" ∧ x ≠ "int" ∧ x ≠ "bool" ∧ lastChar? x = some '?' ∧
      k = .reference (pyRstrip x '?')) := by
  unfold classify at h
  split_ifs at h with h1 h2 h3 h4 h5
  · exact Or.inl ⟨h1, (Option.some_inj.mp h).symm⟩
  · exact Or.inr (Or.inl ⟨h2, (Option.some_inj.mp h).symm⟩)
  · exact Or.inr (Or.inr (Or.inl ⟨h3, (Option.some_inj.mp h).symm⟩))
  · exact Or.inr (Or.inr (Or.inr (Or.inl
      ⟨h1, h2, h3, h4, (Option.some_inj.mp h).symm⟩)))
  · exact Or.inr (Or.inr (Or.inr (Or.inr
      ⟨h1, h2, h3, h5, (Option.some_inj.mp h).symm⟩)))

theorem classify_string_eq (x : String) (h : classify x = some FieldKind.scalarString) :
    x = "string" := by
  rcases classify_cases x _ h with ⟨h1, _⟩ | ⟨_, hk⟩ | ⟨_, hk⟩ |
    ⟨_, _, _, _, hk⟩ | ⟨_, _, _, _, hk⟩
  · exact h1
  all_goals cases hk

theorem classify_int_eq (x : String) (h : classify x = some FieldKind.scalarInt) :
    x = "int" := by
  rcases classify_cases x _ h with ⟨_, hk⟩ | ⟨h1, _⟩ | ⟨_, hk⟩ |
    ⟨_, _, _, _, hk⟩ | ⟨_, _, _, _, hk⟩
  · cases hk
  · exact h1
  all_goals cases hk

theorem classify_bool_eq (x : String) (h : classify x = some FieldKind.scalarBool) :
    x = "bool" := by
  rcases classify_cases x _ h with ⟨_, hk⟩ | ⟨_, hk⟩ | ⟨h1, _⟩ |
    ⟨_, _, _, _, hk⟩ | ⟨_, _, _, _, hk⟩
  · cases hk
  · cases hk
  · exact h1
  all_goals cases hk

theorem classify_collection_elim (x t : String)
    (h : classify x = some (FieldKind.collection t)) :
    x ≠ "string" ∧ x ≠ "int" ∧ x ≠ "bool" ∧ lastChar? x = some '*' ∧
      t = pyRstrip x '*' := by
  rcases classify_cases x _ h with ⟨_, hk⟩ | ⟨_, hk⟩ | ⟨_, hk⟩ |
    ⟨h1, h2, h3, h4, hk⟩ | ⟨_, _, _, _, hk⟩
  · cases hk
  · cases hk
  · cases hk
  · exact ⟨h1, h2, h3, h4, (FieldKind.collection.injEq _ _).mp hk⟩
  · cases hk

theorem classify_reference_elim (x t : String)
    (h : classify x = some (FieldKind.reference t)) :
    x ≠ "string" ∧ x ≠ "int" ∧ x ≠ "bool" ∧ lastChar? x = some '?' ∧
      t = pyRstrip x '?' := by
  rcases classify_cases x _ h with ⟨_, hk⟩ | ⟨_, hk⟩ | ⟨_, hk⟩ |
    ⟨_, _, _, _, hk⟩ | ⟨h1, h2, h3, h4, hk⟩
  · cases hk
  · cases hk
  · cases hk
  · cases hk
  · exact ⟨h1, h2, h3, h4, (FieldKind.reference.injEq _ _).mp hk⟩

theorem javatypify_star (x : String) (h1 : x ≠ "string") (h2 : x ≠ "int")
    (h3 : x ≠ "bool") (h4 : lastChar? x = some '*') :
    javatypify x = some ("CatalogMap<" ++ pyRstrip x '*' ++ ">") := by
  unfold javatypify
  rw [if_neg h1, if_neg h2, if_neg h3, if_pos h4]

theorem javatypify_ref (x : String) (h1 : x ≠ "string") (h2 : x ≠ "int")
    (h3 : x ≠ "bool") (h4 : lastChar? x = some '?') :
    javatypify x = some (pyRstrip x '?') := by
  unfold javatypify
  rw [if_neg h1, if_neg h2, if_neg h3, if_neg (by simp [h4]), if_pos h4]

theorem cpptypify_ref (x : String) (h1 : x ≠ "string") (h2 : x ≠ "int")
    (h3 : x ≠ "bool") (h4 : lastChar? x = some '?') :
    cpptypify x = some "CatalogType*" := by
  unfold cpptypify
  rw [if_neg h1, if_neg h2, if_neg h3, if_neg (by simp [h4]), if_pos h4]

theorem catalogMap_head (t : String) :
    ("CatalogMap<" ++ t ++ ">").data.head? = some 'C' := by
  simp [String.data_append]

theorem catalogMap_ne (t s : String) (hs : s.data.head? ≠ some 'C') :
    ("CatalogMap<" ++ t ++ ">") ≠ s := by
  intro he
  exact hs (he ▸ catalogMap_head t)

/-- The star marker is not the last character of a scalar token. -/
theorem lastChar_scalars :
    lastChar? "string" = some 'g' ∧ lastChar? "int" = some 't' ∧
      lastChar? "bool" = some 'l' := by
  refine ⟨?_, ?_, ?_⟩ <;> decide

/-- C4 counterexample: on the token A** the classifier strips BOTH trailing
stars (Python rstrip), so the Collection target is A, not the
token-minus-one-character A*. -/
theorem c4_counterexample :
    classify "A**" = some (FieldKind.collection "A") ∧
    strDropLast "A**" = "A*" ∧ ("A" : String) ≠ "A*" ∧
    javatypify "A**" = some "CatalogMap<A>" := by decide

/-- C1 counterexample: the emitted equals body of a class with the
Collection field columns contains a comparison of m_columns, so the
comparison logic does not exclude Collection-kind fields. -/
theorem c1_counterexample :
    classify "Column*" = some (FieldKind.collection "Column") ∧
    "        if ((m_columns != null) && !m_columns.equals(other.m_columns)) return false;"
      ∈ equalsLines "Table" demoTable.fields := by decide

/-- C8 counterexample: a Reference field whose target class is named String
is emitted as a plain value assignment in copyFields, not as an
unresolved-path copy. -/
theorem c8_counterexample :
    classify "String?" = some (FieldKind.reference "String") ∧
    ("        other.m_x = m_x;"
      ∈ copyFieldsLines "T" [⟨"x", "String?", none⟩]) ∧
    ("        other.m_x.setUnresolved(m_x.getPath());"
      ∉ copyFieldsLines "T" [⟨"x", "String?", none⟩]) := by decide

/-- C5 counterexample: for a reference field, a trimmed non-null value that
does not begin with a slash hits the emitted assert and aborts instead of
being passed to setUnresolved. -/
theorem c5_counterexample :
    javaTrim "abc" = "abc" ∧ strStartsWith "abc" "null" = false ∧
    javaSet demoProc "partitiontable" "abc" = none ∧
    javaSet demoProc "partitiontable" "abc" ≠
      some (SetOutcome.setRefUnresolved (some "abc")) := by decide

/-- C2 counterexample: the emitted update() body is a pure projection of the
typed value-table views (intValue even for the bool field, raw strValue for
the string field) and applies none of the managed set textual coercion: on
the valid managed string text, the managed rule strips the quotes while the
update projection returns the text unchanged. -/
theorem c2_counterexample :
    updateLines "T" [⟨"a", "int", none⟩, ⟨"flag", "bool", none⟩,
      ⟨"name", "string", none⟩, ⟨"tref", "Table?", none⟩] =
      ["void T::update() \x7b",
       "    m_a = m_fields[\"a\"].intValue;",
       "    m_flag = m_fields[\"flag\"].intValue;",
       "    m_name = m_fields[\"name\"].strValue.c_str();",
       "    m_tref = m_fields[\"tref\"].typeValue;",
       "\x7d\n"] ∧
    javaSetField ⟨"name", "string", none⟩ "\"abc\"" =
      some (SetOutcome.setStr (some "abc")) ∧
    cppUpdateStringDecode ⟨0, "\"abc\"", none⟩ ≠ "abc" := by decide

/-- C3 counterexample: a run over a good class followed by a class with an
unrecognized token aborts, yet has already written the good class's file
and a partial file for the failing class. -/
theorem c3_counterexample :
    (genjavaRun [demoColumn, demoBroken] "in/javasrc" "out/javasrc"
      "org.voltdb.catalog").2 = false ∧
    writesOf (genjavaRun [demoColumn, demoBroken] "in/javasrc" "out/javasrc"
      "org.voltdb.catalog").1 =
      ["out/javasrc/Column.java", "out/javasrc/Broken.java"] := by
  exact ⟨rfl, rfl⟩

/-- C4 amended: classification with the target equal to the token with ALL
trailing marker characters stripped (not a single one) agrees with the
generator's classifier on every token; scalar and failure clauses are as
claimed. -/
theorem c4_amended (x : String) : classify x = specClassify x :=
  classify_eq_specClassify_aux x

theorem flatMap_congr_on {α β : Type} (l : List α) (f g : α → List β)
    (h : ∀ a ∈ l, f a = g a) : l.flatMap f = l.flatMap g := by
  induction l with
  | nil => rfl
  | cons a as ih =>
    simp only [List.flatMap_cons, h a (by simp)]
    rw [ih (fun b hb => h b (by simp [hb]))]

theorem scalarOrRef_iff_not_star (x : String) (hx : (classify x).isSome) :
    kindIsScalarOrRef (classify x) = true ↔ ¬(lastChar? x = some '*') := by
  obtain ⟨k, hk⟩ := Option.isSome_iff_exists.mp hx
  rw [hk]
  rcases classify_cases x k hk with ⟨h1, h2⟩ | ⟨h1, h2⟩ | ⟨h1, h2⟩ |
    ⟨_, _, _, h4, h5⟩ | ⟨_, _, _, h4, h5⟩
  · subst h1; subst h2; simp [kindIsScalarOrRef]; decide
  · subst h1; subst h2; simp [kindIsScalarOrRef]; decide
  · subst h1; subst h2; simp [kindIsScalarOrRef]; decide
  · subst h5; simp [kindIsScalarOrRef, h4]
  · subst h5; simp [kindIsScalarOrRef, h4]

theorem collectionKind_iff_star (x : String) (hx : (classify x).isSome) :
    isCollectionKind (classify x) = true ↔ lastChar? x = some '*' := by
  obtain ⟨k, hk⟩ := Option.isSome_iff_exists.mp hx
  rw [hk]
  rcases classify_cases x k hk with ⟨h1, h2⟩ | ⟨h1, h2⟩ | ⟨h1, h2⟩ |
    ⟨_, _, _, h4, h5⟩ | ⟨_, _, _, h4, h5⟩
  · subst h1; subst h2; simp [isCollectionKind]; decide
  · subst h1; subst h2; simp [isCollectionKind]; decide
  · subst h1; subst h2; simp [isCollectionKind]; decide
  · subst h5; simp [isCollectionKind, h4]
  · subst h5; simp [isCollectionKind, h4]

theorem flatMap_names_nonstar (fields : List Field)
    (h : ∀ f ∈ fields, (classify f.type).isSome) :
    fields.flatMap
      (fun f => if lastChar? f.type ≠ some '*' then
        ["            \"" ++ f.name ++ "\","] else []) =
    (specFieldNames fields).map (fun n => "            \"" ++ n ++ "\",") := by
  induction fields with
  | nil => rfl
  | cons f rest ih =>
    have hf := h f (by simp)
    have hrest := fun b hb => h b (List.mem_cons_of_mem _ hb)
    by_cases hs : lastChar? f.type = some '*'
    · have hko : kindIsScalarOrRef (classify f.type) = false := by
        rw [Bool.eq_false_iff]
        intro h1
        exact (scalarOrRef_iff_not_star f.type hf).mp h1 hs
      simp only [List.flatMap_cons, hs, not_true, if_neg (by simp [hs] : ¬¬(lastChar? f.type = some '*')),
        List.nil_append, specFieldNames, List.filter_cons, hko, if_false]
      simpa [specFieldNames] using ih hrest
    · have hko : kindIsScalarOrRef (classify f.type) = true :=
        (scalarOrRef_iff_not_star f.type hf).mpr hs
      simp only [List.flatMap_cons, if_pos hs, specFieldNames, List.filter_cons,
        hko, if_true, List.map_cons, List.singleton_append]
      rw [ih hrest]
      rfl

theorem flatMap_names_star (fields : List Field)
    (h : ∀ f ∈ fields, (classify f.type).isSome) :
    fields.flatMap
      (fun f => if lastChar? f.type = some '*' then
        ["            \"" ++ f.name ++ "\","] else []) =
    (specCollectionNames fields).map (fun n => "            \"" ++ n ++ "\",") := by
  induction fields with
  | nil => rfl
  | cons f rest ih =>
    have hf := h f (by simp)
    have hrest := fun b hb => h b (List.mem_cons_of_mem _ hb)
    by_cases hs : lastChar? f.type = some '*'
    · have hko : isCollectionKind (classify f.type) = true :=
        (collectionKind_iff_star f.type hf).mpr hs
      simp only [List.flatMap_cons, if_pos hs, specCollectionNames,
        List.filter_cons, hko, if_true, List.map_cons, List.singleton_append]
      rw [ih hrest]
      rfl
    · have hko : isCollectionKind (classify f.type) = false := by
        rw [Bool.eq_false_iff]
        intro h1
        exact hs ((collectionKind_iff_star f.type hf).mp h1)
      simp only [List.flatMap_cons, if_neg hs, specCollectionNames,
        List.filter_cons, hko, if_false, List.nil_append]
      simpa [specCollectionNames] using ih hrest

/-- C6: the name list emitted into getFields() is exactly the Scalar- and
Reference-classified field names in descriptor order, and the one emitted
into getChildCollections() is exactly the Collection-classified field
names in descriptor order. -/
theorem c6_field_enumeration (cls : Cls)
    (h : ∀ f ∈ cls.fields, (classify f.type).isSome) :
    getFieldsLines cls.fields =
      ["    public String[] getFields() \x7b", "        return new String[] \x7b"] ++
        (specFieldNames cls.fields).map (fun n => "            \"" ++ n ++ "\",") ++
        ["        \x7d;", "    \x7d;\n"] ∧
    getChildCollectionsLines cls.fields =
      ["    String[] getChildCollections() \x7b", "        return new String[] \x7b"] ++
        (specCollectionNames cls.fields).map
          (fun n => "            \"" ++ n ++ "\",") ++
        ["        \x7d;", "    \x7d;\n"] := by
  constructor
  · unfold getFieldsLines
    rw [flatMap_names_nonstar cls.fields h]
  · unfold getChildCollectionsLines
    rw [flatMap_names_star cls.fields h]

/-- C6 witness at the demonstration class. -/
theorem c6_witness :
    getFieldsLines demoTable.fields =
      ["    public String[] getFields() \x7b", "        return new String[] \x7b"] ++
        (specFieldNames demoTable.fields).map
          (fun n => "            \"" ++ n ++ "\",") ++
        ["        \x7d;", "    \x7d;\n"] ∧
    getChildCollectionsLines demoTable.fields =
      ["    String[] getChildCollections() \x7b", "        return new String[] \x7b"] ++
        (specCollectionNames demoTable.fields).map
          (fun n => "            \"" ++ n ++ "\",") ++
        ["        \x7d;", "    \x7d;\n"] :=
  c6_field_enumeration demoTable (by decide)

theorem pyCapitalize_eq_spec (s : String) : pyCapitalize s = specCapitalize s := by
  unfold pyCapitalize specCapitalize
  rcases hds : s.data with _ | ⟨c, rest⟩ <;> simp [hds]

/-- C10: the dispatch emitted into getField uses the accessor name derived
by uppercasing the first character and lowercasing the rest of the field
name (Python str.capitalize), and for every field the getter bearing
exactly that derived name is emitted, so every dispatch case targets an
emitted method. -/
theorem c10_dispatch_targets (cls : Cls) :
    (∀ s, pyCapitalize s = specCapitalize s) ∧
    getFieldLines cls.fields =
      ["    public Object getField(String field) \x7b", "        switch (field) \x7b"] ++
      cls.fields.flatMap (fun f => ["        case \"" ++ f.name ++ "\":",
        "            return get" ++ specCapitalize f.name ++ "();"]) ++
      ["        default:",
       "            throw new CatalogException(\"Unknown field\");",
       "        \x7d", "    \x7d\n"] ∧
    ∀ f ∈ cls.fields,
      ("    public " ++ jt f ++ " get" ++ specCapitalize f.name ++ "() \x7b")
        ∈ getterLines cls.fields := by
  have hcap : pyCapitalize = specCapitalize := funext pyCapitalize_eq_spec
  refine ⟨fun s => by rw [hcap], ?_, ?_⟩
  · unfold getFieldLines
    rw [hcap]
  · intro f hf
    unfold getterLines
    apply List.mem_flatMap.mpr
    refine ⟨f, hf, ?_⟩
    unfold getterFieldLines
    rw [hcap]
    rcases hc : f.comment with _ | c <;> simp [hc]

/-- C10 witness at the demonstration class. -/
theorem c10_witness :
    ("    public " ++ jt ⟨"partitioncolumn", "Column?", none⟩ ++ " get" ++
      specCapitalize "partitioncolumn" ++ "() \x7b") ∈ getterLines demoTable.fields :=
  (c10_dispatch_targets demoTable).2.2 ⟨"partitioncolumn", "Column?", none⟩ (by decide)

theorem equalsFieldLines_spec (f : Field) (hf : (classify f.type).isSome)
    (h2 : lastChar? f.type = some '?' →
      pyRstrip f.type '?' ≠ "int" ∧ pyRstrip f.type '?' ≠ "boolean") :
    equalsFieldLines f = specEqualsFieldLines f := by
  obtain ⟨k, hk⟩ := Option.isSome_iff_exists.mp hf
  rcases classify_cases _ _ hk with ⟨h1, hkk⟩ | ⟨h1, hkk⟩ | ⟨h1, hkk⟩ |
    ⟨ha, hb, hc, hd, hkk⟩ | ⟨ha, hb, hc, hd, hkk⟩
  · subst hkk
    have hjt : jt f = "String" := by unfold jt; rw [h1]; rfl
    unfold equalsFieldLines specEqualsFieldLines
    rw [hk, hjt,
      if_neg (by decide : ¬(("String" : String) = "int" ∨ ("String" : String) = "boolean"))]
  · subst hkk
    have hjt : jt f = "int" := by unfold jt; rw [h1]; rfl
    unfold equalsFieldLines specEqualsFieldLines
    rw [hk, hjt, if_pos (Or.inl rfl)]
  · subst hkk
    have hjt : jt f = "boolean" := by unfold jt; rw [h1]; rfl
    unfold equalsFieldLines specEqualsFieldLines
    rw [hk, hjt, if_pos (Or.inr rfl)]
  · subst hkk
    have hjt : jt f = "CatalogMap<" ++ pyRstrip f.type '*' ++ ">" := by
      unfold jt; rw [javatypify_star f.type ha hb hc hd]; rfl
    unfold equalsFieldLines specEqualsFieldLines
    rw [hk, hjt, if_neg ?_]
    rintro (hx | hx)
    · exact catalogMap_ne _ _ (by decide) hx
    · exact catalogMap_ne _ _ (by decide) hx
  · subst hkk
    have hjt : jt f = pyRstrip f.type '?' := by
      unfold jt; rw [javatypify_ref f.type ha hb hc hd]; rfl
    rcases h2 hd with ⟨hn1, hn2⟩
    unfold equalsFieldLines specEqualsFieldLines
    rw [hk, hjt, if_neg ?_]
    rintro (hx | hx)
    · exact hn1 hx
    · exact hn2 hx

/-- C1 amended: the emitted equals compares EVERY field in descriptor order,
collections included: int and bool scalars by value inequality, all other
fields (String, reference handle, collection container) by null-mismatch
then a delegated deep equals. -/
theorem c1_amended (cls : Cls)
    (h : ∀ f ∈ cls.fields, (classify f.type).isSome)
    (h2 : ∀ f ∈ cls.fields, lastChar? f.type = some '?' →
      pyRstrip f.type '?' ≠ "int" ∧ pyRstrip f.type '?' ≠ "boolean") :
    equalsLines cls.name cls.fields =
      ["    public boolean equals(Object obj) \x7b",
       "        // this isn't really the convention for null handling",
       "        if ((obj == null) || (obj.getClass().equals(getClass()) == false))",
       "            return false;\n",
       "        // Do the identity check",
       "        if (obj == this)",
       "            return true;\n",
       "        // this is safe because of the class check",
       "        // it is also known that the childCollections var will be the same",
       "        //  from the class check",
       "        " ++ cls.name ++ " other = (" ++ cls.name ++ ") obj;\n",
       "        // are the fields / children the same? (deep compare)"] ++
      cls.fields.flatMap specEqualsFieldLines ++
      ["", "        return true;", "    \x7d\n"] := by
  unfold equalsLines
  rw [flatMap_congr_on cls.fields equalsFieldLines specEqualsFieldLines
    (fun f hf => equalsFieldLines_spec f (h f hf) (h2 f hf))]

/-- C1 amended witness at the demonstration class. -/
theorem c1_amended_witness :
    equalsLines demoTable.name demoTable.fields =
      ["    public boolean equals(Object obj) \x7b",
       "        // this isn't really the convention for null handling",
       "        if ((obj == null) || (obj.getClass().equals(getClass()) == false))",
       "            return false;\n",
       "        // Do the identity check",
       "        if (obj == this)",
       "            return true;\n",
       "        // this is safe because of the class check",
       "        // it is also known that the childCollections var will be the same",
       "        //  from the class check",
       "        " ++ demoTable.name ++ " other = (" ++ demoTable.name ++ ") obj;\n",
       "        // are the fields / children the same? (deep compare)"] ++
      demoTable.fields.flatMap specEqualsFieldLines ++
      ["", "        return true;", "    \x7d\n"] :=
  c1_amended demoTable (by decide) (by decide)

theorem copyFieldLine_spec (f : Field) (hf : (classify f.type).isSome)
    (h2 : lastChar? f.type = some '?' →
      pyRstrip f.type '?' ≠ "int" ∧ pyRstrip f.type '?' ≠ "boolean" ∧
      pyRstrip f.type '?' ≠ "String") :
    copyFieldLine f = specCopyFieldLine f := by
  obtain ⟨k, hk⟩ := Option.isSome_iff_exists.mp hf
  rcases classify_cases _ _ hk with ⟨h1, hkk⟩ | ⟨h1, hkk⟩ | ⟨h1, hkk⟩ |
    ⟨ha, hb, hc, hd, hkk⟩ | ⟨ha, hb, hc, hd, hkk⟩
  · subst hkk
    have hjt : jt f = "String" := by unfold jt; rw [h1]; rfl
    unfold copyFieldLine specCopyFieldLine
    rw [hk, hjt, if_pos (Or.inr (Or.inr rfl))]
  · subst hkk
    have hjt : jt f = "int" := by unfold jt; rw [h1]; rfl
    unfold copyFieldLine specCopyFieldLine
    rw [hk, hjt, if_pos (Or.inl rfl)]
  · subst hkk
    have hjt : jt f = "boolean" := by unfold jt; rw [h1]; rfl
    unfold copyFieldLine specCopyFieldLine
    rw [hk, hjt, if_pos (Or.inr (Or.inl rfl))]
  · subst hkk
    have hjt : jt f = "CatalogMap<" ++ pyRstrip f.type '*' ++ ">" := by
      unfold jt; rw [javatypify_star f.type ha hb hc hd]; rfl
    unfold copyFieldLine specCopyFieldLine
    rw [hk, hjt, if_neg ?_, if_neg (by rw [hd]; decide), if_pos hd]
    rintro (hx | hx | hx)
    · exact catalogMap_ne _ _ (by decide) hx
    · exact catalogMap_ne _ _ (by decide) hx
    · exact catalogMap_ne _ _ (by decide) hx
  · subst hkk
    have hjt : jt f = pyRstrip f.type '?' := by
      unfold jt; rw [javatypify_ref f.type ha hb hc hd]; rfl
    rcases h2 hd with ⟨hn1, hn2, hn3⟩
    unfold copyFieldLine specCopyFieldLine
    rw [hk, hjt, if_neg ?_, if_pos hd]
    rintro (hx | hx | hx)
    · exact hn1 hx
    · exact hn2 hx
    · exact hn3 hx

/-- C8 amended: the emitted copyFields performs, per field in descriptor
order, the claimed per-kind action (plain value assignment for scalars,
unresolved-path copy for references, delegated recursive copyFrom for
collections) for every class whose reference targets are not named int,
boolean or String; a reference whose target collides with one of those
emitted scalar type names is mis-emitted as a plain value assignment. -/
theorem c8_amended (clsname : String) (fields : List Field)
    (h : ∀ f ∈ fields, (classify f.type).isSome)
    (h2 : ∀ f ∈ fields, lastChar? f.type = some '?' →
      pyRstrip f.type '?' ≠ "int" ∧ pyRstrip f.type '?' ≠ "boolean" ∧
      pyRstrip f.type '?' ≠ "String") :
    copyFieldsLines clsname fields =
      ["    @Override", "    void copyFields(CatalogType obj) \x7b"] ++
      (if fields.length > 0 then
        ["        // this is safe from the caller",
         "        " ++ clsname ++ " other = (" ++ clsname ++ ") obj;\n"] ++
        fields.flatMap specCopyFieldLine
       else []) ++
      ["    \x7d\n"] := by
  unfold copyFieldsLines
  rw [flatMap_congr_on fields copyFieldLine specCopyFieldLine
    (fun f hf => copyFieldLine_spec f (h f hf) (h2 f hf))]

/-- C8 amended witness at the demonstration class. -/
theorem c8_amended_witness :
    copyFieldsLines demoTable.name demoTable.fields =
      ["    @Override", "    void copyFields(CatalogType obj) \x7b"] ++
      (if demoTable.fields.length > 0 then
        ["        // this is safe from the caller",
         "        " ++ demoTable.name ++ " other = (" ++ demoTable.name ++ ") obj;\n"] ++
        demoTable.fields.flatMap specCopyFieldLine
       else []) ++
      ["    \x7d\n"] :=
  c8_amended demoTable.name demoTable.fields (by decide) (by decide)

theorem updateFieldLine_spec (f : Field) (hf : (classify f.type).isSome) :
    updateFieldLine f = specUpdateFieldLines f := by
  obtain ⟨k, hk⟩ := Option.isSome_iff_exists.mp hf
  rcases classify_cases _ _ hk with ⟨h1, hkk⟩ | ⟨h1, hkk⟩ | ⟨h1, hkk⟩ |
    ⟨ha, hb, hc, hd, hkk⟩ | ⟨ha, hb, hc, hd, hkk⟩
  · subst hkk
    have hl : lastChar? f.type = some 'g' := by rw [h1]; decide
    have hct : ct f = "std::string" := by unfold ct; rw [h1]; rfl
    unfold updateFieldLine specUpdateFieldLines
    rw [hk, hct, if_neg (by rw [hl]; decide), if_pos (by rw [hl]; decide),
      if_pos rfl]
  · subst hkk
    have hl : lastChar? f.type = some 't' := by rw [h1]; decide
    have hct : ct f = "int32_t" := by unfold ct; rw [h1]; rfl
    unfold updateFieldLine specUpdateFieldLines
    rw [hk, hct, if_neg (by rw [hl]; decide), if_pos (by rw [hl]; decide),
      if_neg (by decide)]
  · subst hkk
    have hl : lastChar? f.type = some 'l' := by rw [h1]; decide
    have hct : ct f = "bool" := by unfold ct; rw [h1]; rfl
    unfold updateFieldLine specUpdateFieldLines
    rw [hk, hct, if_neg (by rw [hl]; decide), if_pos (by rw [hl]; decide),
      if_neg (by decide)]
  · subst hkk
    unfold updateFieldLine specUpdateFieldLines
    rw [hk, if_neg (by rw [hd]; decide), if_neg (by rw [hd]; simp)]
  · subst hkk
    unfold updateFieldLine specUpdateFieldLines
    rw [hk, if_pos hd]

/-- C2 amended: the emitted update() performs no textual coercion at all; it
refreshes each non-collection field by a pure projection of the typed
value-table view selected by the field's kind (intValue for int and bool
fields, strValue for string fields, typeValue for references), collections
contributing nothing.  The textual parsing the claim attributes to update()
happens upstream, in the static support sources, not in the emitted
routine. -/
theorem c2_amended (clsname : String) (fields : List Field)
    (h : ∀ f ∈ fields, (classify f.type).isSome) :
    updateLines clsname fields =
      ["void " ++ clsname ++ "::update() \x7b"] ++
      fields.flatMap specUpdateFieldLines ++ ["\x7d\n"] := by
  unfold updateLines
  rw [flatMap_congr_on fields updateFieldLine specUpdateFieldLines
    (fun f hf => updateFieldLine_spec f (h f hf))]

/-- C2 amended witness at the demonstration class. -/
theorem c2_amended_witness :
    updateLines demoTable.name demoTable.fields =
      ["void " ++ demoTable.name ++ "::update() \x7b"] ++
      demoTable.fields.flatMap specUpdateFieldLines ++ ["\x7d\n"] :=
  c2_amended demoTable.name demoTable.fields (by decide)

/-- C5 amended: the emitted set coerces exactly as claimed for int, bool and
string fields and for unknown names, while for reference fields a non-null
trimmed path must additionally begin with a slash (the emitted assert);
otherwise the call aborts rather than reaching setUnresolved. -/
theorem c5_amended (f : Field) (cls : Cls) (fieldName v : String) :
    ((classify f.type = some FieldKind.scalarInt →
        javaSetField f v = (parseIntJava v).map SetOutcome.setInt) ∧
     (classify f.type = some FieldKind.scalarBool →
        javaSetField f v = some (SetOutcome.setBool (eqIgnoreCase v "true"))) ∧
     (classify f.type = some FieldKind.scalarString →
        javaSetField f v = specStringCoerce v) ∧
     (∀ t, classify f.type = some (FieldKind.reference t) →
        javaSetField f v = specRefCoerce v)) ∧
    ((∀ g ∈ cls.fields, ¬(lastChar? g.type ≠ some '*' ∧ g.name = fieldName)) →
      javaSet cls fieldName v = none) := by
  refine ⟨⟨?_, ?_, ?_, ?_⟩, ?_⟩
  · intro hkk
    have h1 := classify_int_eq _ hkk
    have hl : lastChar? f.type = some 't' := by rw [h1]; decide
    have hjt : jt f = "int" := by unfold jt; rw [h1]; rfl
    unfold javaSetField
    rw [if_neg (by rw [hl]; decide), hjt, if_pos rfl]
  · intro hkk
    have h1 := classify_bool_eq _ hkk
    have hl : lastChar? f.type = some 'l' := by rw [h1]; decide
    have hjt : jt f = "boolean" := by unfold jt; rw [h1]; rfl
    unfold javaSetField
    rw [if_neg (by rw [hl]; decide), hjt, if_neg (by decide), if_pos rfl]
    rfl
  · intro hkk
    have h1 := classify_string_eq _ hkk
    have hl : lastChar? f.type = some 'g' := by rw [h1]; decide
    have hjt : jt f = "String" := by unfold jt; rw [h1]; rfl
    unfold javaSetField specStringCoerce
    rw [if_neg (by rw [hl]; decide), hjt, if_neg (by decide), if_neg (by decide),
      if_pos rfl]
    by_cases hA : strStartsWith (javaTrim v) "null" = true
    · simp [hA]
    · by_cases hS : strStartsWith (javaTrim v) "\"" = true <;>
      by_cases hE : strEndsWith (javaTrim v) "\"" = true <;>
      by_cases hL : 2 ≤ (javaTrim v).data.length <;>
        simp_all
  · intro t hkk
    rcases classify_reference_elim _ _ hkk with ⟨ha, hb, hc, hd, hT⟩
    unfold javaSetField specRefCoerce
    rw [if_pos hd]
  · intro hnone
    unfold javaSet
    have hfind : cls.fields.find?
        (fun g => !(lastChar? g.type == some '*') && g.name == fieldName) = none := by
      apply List.find?_eq_none.mpr
      intro g hg
      have hn := hnone g hg
      simp only [Bool.and_eq_true, Bool.not_eq_true', beq_iff_eq, not_and]
      intro hx hy
      exact hn ⟨by simpa using hx, hy⟩
    rw [hfind]

/-- C5 amended witness at concrete fields and values. -/
theorem c5_witness :
    javaSetField ⟨"index", "int", none⟩ "42" =
      (parseIntJava "42").map SetOutcome.setInt ∧
    javaSetField ⟨"partitiontable", "Table?", none⟩ " null " =
      specRefCoerce " null " ∧
    javaSet demoColumn "nosuch" "42" = none :=
  ⟨((c5_amended ⟨"index", "int", none⟩ demoColumn "nosuch" "42").1).1 rfl,
   ((c5_amended ⟨"partitiontable", "Table?", none⟩ demoColumn "nosuch"
      " null ").1).2.2.2 "Table" rfl,
   (c5_amended ⟨"index", "int", none⟩ demoColumn "nosuch" "42").2 (by decide)⟩

theorem fieldsSection_ok_of (fields : List Field)
    (h : ∀ f ∈ fields, (javatypify f.type).isSome) :
    ∃ ls, fieldsSection fields = .ok ls := by
  induction fields with
  | nil => exact ⟨[""], rfl⟩
  | cons f rest ih =>
    obtain ⟨ft, hft⟩ := Option.isSome_iff_exists.mp (h f (by simp))
    obtain ⟨ls, hls⟩ := ih (fun g hg => h g (by simp [hg]))
    exact ⟨fieldDeclLine f ft :: ls, by simp [fieldsSection, hft, hls]⟩

theorem fieldsSection_err_of (fields : List Field)
    (h : ∃ f ∈ fields, javatypify f.type = none) :
    ∃ ls, fieldsSection fields = .error ls := by
  induction fields with
  | nil => simp at h
  | cons f rest ih =>
    by_cases hft : javatypify f.type = none
    · exact ⟨[], by simp [fieldsSection, hft]⟩
    · obtain ⟨ft, hft2⟩ := Option.ne_none_iff_exists'.mp hft
      have hrest : ∃ g ∈ rest, javatypify g.type = none := by
        rcases h with ⟨g, hg, hgn⟩
        rcases List.mem_cons.mp hg with rfl | hg2
        · exact absurd hgn hft
        · exact ⟨g, hg2, hgn⟩
      obtain ⟨ls, hls⟩ := ih hrest
      exact ⟨fieldDeclLine f ft :: ls, by simp [fieldsSection, hft2, hls]⟩

theorem genjavaClass_complete (pkg : String) (cls : Cls)
    (h : ∀ f ∈ cls.fields, (javatypify f.type).isSome) :
    ∃ ls, genjavaClass pkg cls = .inr ls := by
  obtain ⟨ls, hls⟩ := fieldsSection_ok_of cls.fields h
  unfold genjavaClass
  rw [hls]
  exact ⟨_, rfl⟩

theorem genjavaClass_err (pkg : String) (cls : Cls)
    (h : ∃ f ∈ cls.fields, javatypify f.type = none) :
    ∃ ls, genjavaClass pkg cls = .inl ls := by
  obtain ⟨ls, hls⟩ := fieldsSection_err_of cls.fields h
  unfold genjavaClass
  rw [hls]
  exact ⟨_, rfl⟩

theorem genjavaLoop_append_fail (pkg post : String) (good : List Cls) (bad : Cls)
    (rest : List Cls)
    (hgood : ∀ c ∈ good, ∀ f ∈ c.fields, (javatypify f.type).isSome)
    (hbad : ∃ f ∈ bad.fields, javatypify f.type = none) :
    genjavaLoop pkg post (good ++ bad :: rest) =
      (good.map (fun c => FsEvent.writeFile (post ++ "/" ++ c.name ++ ".java")
        (Sum.elim id id (genjavaClass pkg c))) ++
       [FsEvent.writeFile (post ++ "/" ++ bad.name ++ ".java")
        (Sum.elim id id (genjavaClass pkg bad))], false) := by
  induction good with
  | nil =>
    obtain ⟨part, hpart⟩ := genjavaClass_err pkg bad hbad
    simp [genjavaLoop, hpart]
  | cons c good' ih =>
    obtain ⟨ls, hls⟩ := genjavaClass_complete pkg c (hgood c (by simp))
    have ihh := ih (fun d hd => hgood d (by simp [hd]))
    simp [genjavaLoop, hls, ihh]

/-- C3 amended: a classification failure aborts the run (the failure flag is
false and no later class is processed), but the output produced before the
failure remains: the output directory was cleared, the support files
copied, a complete file written for every class before the failing one, and
a partially written file for the failing class itself. -/
theorem c3_amended (good : List Cls) (bad : Cls) (rest : List Cls)
    (pre post pkg : String)
    (hgood : ∀ c ∈ good, ∀ f ∈ c.fields, (javatypify f.type).isSome)
    (hbad : ∃ f ∈ bad.fields, javatypify f.type = none) :
    (genjavaRun (good ++ bad :: rest) pre post pkg).2 = false ∧
    (genjavaRun (good ++ bad :: rest) pre post pkg).1 =
      genjavaSetup pre post ++
      good.map (fun c => FsEvent.writeFile (post ++ "/" ++ c.name ++ ".java")
        (Sum.elim id id (genjavaClass pkg c))) ++
      [FsEvent.writeFile (post ++ "/" ++ bad.name ++ ".java")
        (Sum.elim id id (genjavaClass pkg bad))] := by
  have hl := genjavaLoop_append_fail pkg post good bad rest hgood hbad
  unfold genjavaRun
  rw [hl]
  exact ⟨rfl, by simp⟩

/-- C3 amended witness at the demonstration classes. -/
theorem c3_amended_witness :
    (genjavaRun ([demoColumn] ++ demoBroken :: []) "in/javasrc" "out/javasrc"
      "org.voltdb.catalog").2 = false ∧
    (genjavaRun ([demoColumn] ++ demoBroken :: []) "in/javasrc" "out/javasrc"
      "org.voltdb.catalog").1 =
      genjavaSetup "in/javasrc" "out/javasrc" ++
      [demoColumn].map (fun c => FsEvent.writeFile
        ("out/javasrc" ++ "/" ++ c.name ++ ".java")
        (Sum.elim id id (genjavaClass "org.voltdb.catalog" c))) ++
      [FsEvent.writeFile ("out/javasrc" ++ "/" ++ demoBroken.name ++ ".java")
        (Sum.elim id id (genjavaClass "org.voltdb.catalog" demoBroken))] :=
  c3_amended [demoColumn] demoBroken [] "in/javasrc" "out/javasrc"
    "org.voltdb.catalog" (by decide) (by decide)

theorem cppAddChildLoop_found (st : String → List String) (cn ch : String)
    (fields : List Field)
    (hmem : cn ∈ (fields.filter (fun f => lastChar? f.type == some '*')).map
      Field.name) :
    cppAddChildLoop st cn ch fields =
      (if cmapGet (st cn) ch then AddChildResult.nullPtr
       else AddChildResult.created ch) := by
  induction fields with
  | nil => simp at hmem
  | cons f rest ih =>
    by_cases hstar : lastChar? f.type = some '*'
    · by_cases hname : f.name = cn
      · unfold cppAddChildLoop
        rw [if_pos ⟨hstar, hname⟩, hname]
      · have hmem' : cn ∈ (rest.filter
            (fun f => lastChar? f.type == some '*')).map Field.name := by
          have hmem2 := hmem
          rw [List.filter_cons, if_pos (by simp [hstar]), List.map_cons] at hmem2
          rcases List.mem_cons.mp hmem2 with hcn | h2
          · exact absurd hcn.symm hname
          · exact h2
        unfold cppAddChildLoop
        rw [if_neg (by rintro ⟨_, hn⟩; exact hname hn)]
        exact ih hmem'
    · have hmem' : cn ∈ (rest.filter
          (fun f => lastChar? f.type == some '*')).map Field.name := by
        have hmem2 := hmem
        rw [List.filter_cons, if_neg (by simp [hstar])] at hmem2
        exact hmem2
      unfold cppAddChildLoop
      rw [if_neg (by rintro ⟨hs, _⟩; exact hstar hs)]
      exact ih hmem'

theorem cppRemoveChildLoop_found (st : String → List String) (cn ch : String)
    (fields : List Field)
    (hmem : cn ∈ (fields.filter (fun f => lastChar? f.type == some '*')).map
      Field.name) :
    cppRemoveChildLoop st cn ch fields = cmapGet (st cn) ch := by
  induction fields with
  | nil => simp at hmem
  | cons f rest ih =>
    by_cases hstar : lastChar? f.type = some '*'
    · by_cases hname : f.name = cn
      · unfold cppRemoveChildLoop
        rw [if_pos ⟨hstar, hname⟩, hname]
      · have hmem' : cn ∈ (rest.filter
            (fun f => lastChar? f.type == some '*')).map Field.name := by
          have hmem2 := hmem
          rw [List.filter_cons, if_pos (by simp [hstar]), List.map_cons] at hmem2
          rcases List.mem_cons.mp hmem2 with hcn | h2
          · exact absurd hcn.symm hname
          · exact h2
        unfold cppRemoveChildLoop
        rw [if_neg (by rintro ⟨_, hn⟩; exact hname hn)]
        exact ih hmem'
    · have hmem' : cn ∈ (rest.filter
          (fun f => lastChar? f.type == some '*')).map Field.name := by
        have hmem2 := hmem
        rw [List.filter_cons, if_neg (by simp [hstar])] at hmem2
        exact hmem2
      unfold cppRemoveChildLoop
      rw [if_neg (by rintro ⟨hs, _⟩; exact hstar hs)]
      exact ih hmem'

/-- C9: for a declared collection, the emitted addChild returns NULL when a
child of that name already exists and a freshly created child otherwise;
the emitted removeChild asserts (aborts) on an undeclared collection name,
and reports boolean failure, without aborting, for a declared collection
whose named child is absent. -/
theorem c9_child_management (cls : Cls) (st : String → List String)
    (cn ch : String) :
    (cn ∈ collectionNames cls → cmapGet (st cn) ch = true →
      cppAddChild cls st cn ch = AddChildResult.nullPtr) ∧
    (cn ∈ collectionNames cls → cmapGet (st cn) ch = false →
      cppAddChild cls st cn ch = AddChildResult.created ch) ∧
    (cn ∉ collectionNames cls → cppRemoveChild cls st cn ch = none) ∧
    (cn ∈ collectionNames cls → cmapGet (st cn) ch = false →
      cppRemoveChild cls st cn ch = some false) := by
  refine ⟨?_, ?_, ?_, ?_⟩
  · intro hmem hget
    unfold cppAddChild
    rw [cppAddChildLoop_found st cn ch cls.fields
      (by simpa [collectionNames] using hmem), if_pos hget]
  · intro hmem hget
    unfold cppAddChild
    rw [cppAddChildLoop_found st cn ch cls.fields
      (by simpa [collectionNames] using hmem), if_neg (by simp [hget])]
  · intro hmem
    unfold cppRemoveChild
    rw [if_neg hmem]
  · intro hmem hget
    unfold cppRemoveChild
    rw [if_pos hmem, cppRemoveChildLoop_found st cn ch cls.fields
      (by simpa [collectionNames] using hmem), hget]

/-- C9 witness at the demonstration class and container state. -/
theorem c9_witness :
    cppAddChild demoTable demoSt "columns" "c1" = AddChildResult.nullPtr ∧
    cppAddChild demoTable demoSt "columns" "c2" = AddChildResult.created "c2" ∧
    cppRemoveChild demoTable demoSt "rows" "c1" = none ∧
    cppRemoveChild demoTable demoSt "columns" "c9" = some false :=
  ⟨(c9_child_management demoTable demoSt "columns" "c1").1 (by decide) (by decide),
   (c9_child_management demoTable demoSt "columns" "c2").2.1 (by decide) (by decide),
   (c9_child_management demoTable demoSt "rows" "c1").2.2.1 (by decide),
   (c9_child_management demoTable demoSt "columns" "c9").2.2.2 (by decide) (by decide)⟩

theorem rstrip_single_list (l' : List Char) (m : Char)
    (h2 : l'.getLast? ≠ some m) :
    ((l' ++ [m]).reverse.dropWhile (fun a => a == m)).reverse = l' := by
  simp only [List.reverse_append, List.reverse_singleton, List.singleton_append,
    List.dropWhile_cons, beq_self_eq_true, if_true]
  have hdw : l'.reverse.dropWhile (fun a => a == m) = l'.reverse := by
    cases hr : l'.reverse with
    | nil => simp
    | cons a t =>
      have hh : l'.getLast? = some a := by
        rw [← List.head?_reverse, hr]; rfl
      have ha : (a == m) = false := by
        simp only [beq_eq_false_iff_ne, ne_eq]
        intro hm2
        exact h2 (hm2 ▸ hh)
      rw [List.dropWhile_cons, ha]
      simp
  rw [hdw, List.reverse_reverse]

theorem pyRstrip_single (x : String) (m : Char) (h1 : lastChar? x = some m)
    (h2 : lastChar? (strDropLast x) ≠ lastChar? x) :
    pyRstrip x m = strDropLast x := by
  have hsplit : x.data.dropLast ++ [m] = x.data :=
    List.dropLast_append_getLast? m (Option.mem_def.mpr h1)
  have h2' : x.data.dropLast.getLast? ≠ some m := by
    intro hc
    apply h2
    rw [h1]
    exact hc
  unfold pyRstrip strDropLast
  congr 1
  calc (x.data.reverse.dropWhile (fun a => a == m)).reverse
      = (((x.data.dropLast ++ [m]).reverse).dropWhile (fun a => a == m)).reverse := by
        rw [hsplit]
    _ = x.data.dropLast := rstrip_single_list _ m h2'

theorem refLoop_spec : ∀ (fields : List Field) (acc : List String),
    (∀ f ∈ fields, (classify f.type).isSome) →
    (∀ f ∈ fields, lastChar? (strDropLast f.type) ≠ lastChar? f.type) →
    referencedClassesLoop fields acc =
      acc ++ (dedupKeepFirst (specRefCollTargets fields)).filter
        (fun t => !(acc.contains t)) := by
  intro fields
  induction fields with
  | nil =>
    intro acc h hs
    simp [referencedClassesLoop, specRefCollTargets, dedupKeepFirst]
  | cons f rest ih =>
    intro acc h hs
    have hf := h f (by simp)
    have hsf := hs f (by simp)
    have hrest := fun g hg => h g (List.mem_cons_of_mem _ hg)
    have hsrest := fun g hg => hs g (List.mem_cons_of_mem _ hg)
    obtain ⟨k, hk⟩ := Option.isSome_iff_exists.mp hf
    rcases classify_cases _ _ hk with ⟨h1, hkk⟩ | ⟨h1, hkk⟩ | ⟨h1, hkk⟩ |
      ⟨ha, hb, hc, hd, hkk⟩ | ⟨ha, hb, hc, hd, hkk⟩
    · subst hkk
      have hl : lastChar? f.type = some 'g' := by rw [h1]; decide
      have htargets : specRefCollTargets (f :: rest) = specRefCollTargets rest := by
        simp [specRefCollTargets, List.filterMap_cons, hk]
      unfold referencedClassesLoop
      rw [if_neg ?hneg1, ih acc hrest hsrest, htargets]
      case hneg1 =>
        rintro ⟨hor, _⟩
        rcases hor with hx | hx
        · exact absurd hx (by rw [hl]; decide)
        · exact absurd hx (by rw [hl]; decide)
    · subst hkk
      have hl : lastChar? f.type = some 't' := by rw [h1]; decide
      have htargets : specRefCollTargets (f :: rest) = specRefCollTargets rest := by
        simp [specRefCollTargets, List.filterMap_cons, hk]
      unfold referencedClassesLoop
      rw [if_neg ?hneg2, ih acc hrest hsrest, htargets]
      case hneg2 =>
        rintro ⟨hor, _⟩
        rcases hor with hx | hx
        · exact absurd hx (by rw [hl]; decide)
        · exact absurd hx (by rw [hl]; decide)
    · subst hkk
      have hl : lastChar? f.type = some 'l' := by rw [h1]; decide
      have htargets : specRefCollTargets (f :: rest) = specRefCollTargets rest := by
        simp [specRefCollTargets, List.filterMap_cons, hk]
      unfold referencedClassesLoop
      rw [if_neg ?hneg3, ih acc hrest hsrest, htargets]
      case hneg3 =>
        rintro ⟨hor, _⟩
        rcases hor with hx | hx
        · exact absurd hx (by rw [hl]; decide)
        · exact absurd hx (by rw [hl]; decide)
    · subst hkk
      have hdl : strDropLast f.type = pyRstrip f.type '*' :=
        (pyRstrip_single f.type '*' hd hsf).symm
      have htargets : specRefCollTargets (f :: rest) =
          strDropLast f.type :: specRefCollTargets rest := by
        simp [specRefCollTargets, List.filterMap_cons, hk, hdl]
      unfold referencedClassesLoop
      by_cases hacc : strDropLast f.type ∈ acc
      · rw [if_neg (by rintro ⟨_, hnin⟩; exact hnin hacc),
          ih acc hrest hsrest, htargets]
        congr 1
        rw [show dedupKeepFirst (strDropLast f.type :: specRefCollTargets rest) =
            strDropLast f.type :: (dedupKeepFirst (specRefCollTargets rest)).filter
              (fun b => b ≠ strDropLast f.type) from rfl]
        rw [List.filter_cons]
        have hcd : (!(acc.contains (strDropLast f.type))) = false := by simp [hacc]
        rw [hcd, if_neg (by simp), List.filter_filter]
        apply List.filter_congr
        intro b hb
        by_cases hbacc : b ∈ acc
        · simp [hbacc]
        · have hbd : b ≠ strDropLast f.type := fun he => hbacc (he ▸ hacc)
          simp [hbacc, hbd]
      · rw [if_pos ⟨Or.inl hd, hacc⟩,
          ih (acc ++ [strDropLast f.type]) hrest hsrest, htargets]
        rw [show dedupKeepFirst (strDropLast f.type :: specRefCollTargets rest) =
            strDropLast f.type :: (dedupKeepFirst (specRefCollTargets rest)).filter
              (fun b => b ≠ strDropLast f.type) from rfl]
        rw [List.filter_cons]
        have hcd : (!(acc.contains (strDropLast f.type))) = true := by simp [hacc]
        rw [hcd, if_pos rfl, List.append_assoc]
        congr 1
        rw [List.singleton_append]
        congr 1
        rw [List.filter_filter]
        apply List.filter_congr
        intro b hb
        by_cases hbacc : b ∈ acc <;> by_cases hbd : b = strDropLast f.type <;>
          simp [hbacc, hbd]
    · subst hkk
      have hdl : strDropLast f.type = pyRstrip f.type '?' :=
        (pyRstrip_single f.type '?' hd hsf).symm
      have htargets : specRefCollTargets (f :: rest) =
          strDropLast f.type :: specRefCollTargets rest := by
        simp [specRefCollTargets, List.filterMap_cons, hk, hdl]
      unfold referencedClassesLoop
      by_cases hacc : strDropLast f.type ∈ acc
      · rw [if_neg (by rintro ⟨_, hnin⟩; exact hnin hacc),
          ih acc hrest hsrest, htargets]
        congr 1
        rw [show dedupKeepFirst (strDropLast f.type :: specRefCollTargets rest) =
            strDropLast f.type :: (dedupKeepFirst (specRefCollTargets rest)).filter
              (fun b => b ≠ strDropLast f.type) from rfl]
        rw [List.filter_cons]
        have hcd : (!(acc.contains (strDropLast f.type))) = false := by simp [hacc]
        rw [hcd, if_neg (by simp), List.filter_filter]
        apply List.filter_congr
        intro b hb
        by_cases hbacc : b ∈ acc
        · simp [hbacc]
        · have hbd : b ≠ strDropLast f.type := fun he => hbacc (he ▸ hacc)
          simp [hbacc, hbd]
      · rw [if_pos ⟨Or.inr hd, hacc⟩,
          ih (acc ++ [strDropLast f.type]) hrest hsrest, htargets]
        rw [show dedupKeepFirst (strDropLast f.type :: specRefCollTargets rest) =
            strDropLast f.type :: (dedupKeepFirst (specRefCollTargets rest)).filter
              (fun b => b ≠ strDropLast f.type) from rfl]
        rw [List.filter_cons]
        have hcd : (!(acc.contains (strDropLast f.type))) = true := by simp [hacc]
        rw [hcd, if_pos rfl, List.append_assoc]
        congr 1
        rw [List.singleton_append]
        congr 1
        rw [List.filter_filter]
        apply List.filter_congr
        intro b hb
        by_cases hbacc : b ∈ acc <;> by_cases hbd : b = strDropLast f.type <;>
          simp [hbacc, hbd]

theorem dedupKeepFirst_nodup (l : List String) : (dedupKeepFirst l).Nodup := by
  induction l with
  | nil => simp [dedupKeepFirst]
  | cons a as ih =>
    simp only [dedupKeepFirst]
    refine List.nodup_cons.mpr ⟨?_, List.Nodup.filter _ ih⟩
    intro hmem
    rcases List.mem_filter.mp hmem with ⟨_, hne⟩
    simp at hne

/-- C7: the manual backend forward-declares exactly the distinct target
class names of the Reference and Collection fields, in first-occurrence
order, with the class's own name excluded (self-reference stays a valid
field but yields no forward declaration). -/
theorem c7_forward_decls (cls : Cls)
    (h : ∀ f ∈ cls.fields, (classify f.type).isSome)
    (hs : ∀ f ∈ cls.fields, lastChar? (strDropLast f.type) ≠ lastChar? f.type) :
    referencedClasses cls = specForwardDecls cls ∧
    forwardDeclLines cls =
      (specForwardDecls cls).map (fun t => "class " ++ t ++ ";") := by
  have hloop := refLoop_spec cls.fields [] h hs
  have hbase : referencedClassesLoop cls.fields [] =
      dedupKeepFirst (specRefCollTargets cls.fields) := by
    rw [hloop]
    simp
  have hmain : referencedClasses cls = specForwardDecls cls := by
    unfold referencedClasses specForwardDecls
    rw [hbase, (dedupKeepFirst_nodup _).erase_eq_filter cls.name]
    apply List.filter_congr
    intro b hb
    by_cases hbn : b = cls.name <;> simp [hbn]
  exact ⟨hmain, by unfold forwardDeclLines; rw [hmain]⟩

/-- C7 witness at a self-referencing demonstration class. -/
theorem c7_witness :
    referencedClasses demoStat = specForwardDecls demoStat ∧
    forwardDeclLines demoStat =
      (specForwardDecls demoStat).map (fun t => "class " ++ t ++ ";") :=
  c7_forward_decls demoStat (by decide) (by decide)
